import Mathlib

/-!
Verification of `doc/nb/SNOwGLoBES_usage.ipynb`.

The notebook is a linear script: it sets up model parameters and a sequence
of time-window boundaries, calls the external toolkit entry points
`snowglobes.generate_fluence`, `snowglobes.simulate` and `snowglobes.collate`,
then aggregates per-bin event counts from the collated tables and plots them.

This file gives a shallow embedding of the notebook's own computations.
Machine floats are embedded as exact rationals (`ℚ`); Python dictionaries as
functions into `Option`; Python exceptions (KeyError on a missing dictionary
key, IndexError on out-of-range sequence indexing) as `Except` values.  The
three external toolkit calls are opaque parameters (fields of a structure),
since their implementations are not part of this repository.
-/

namespace SnowglobesUsage

/-- Cell 1: `SNOwGLoBES_path = "/path/to/snowglobes/"`. -/
def SNOwGLoBES_path : String := "/path/to/snowglobes/"

/-- Cell 1: `SNEWPY_models_base = "/path/to/snewpy/models/"`. -/
def SNEWPY_models_base : String := "/path/to/snewpy/models/"

/-- Cell 2: `distance = 10` (kpc). -/
def distance : ℚ := 10

/-- Cell 2: `detector = "icecube"`. -/
def detector : String := "icecube"

/-- Cell 2: `modeltype = 'Zha_2021'`. -/
def modeltype : String := "Zha_2021"

/-- Cell 2: `model = 's17'`. -/
def model : String := "s17"

/-- Cell 2: `transformation = 'AdiabaticMSW_NMO'`. -/
def transformation : String := "AdiabaticMSW_NMO"

/-- Cell 2: `modelfile = SNEWPY_models_base + "/" + modeltype + "/" + model + '.dat'`. -/
def modelfile : String := SNEWPY_models_base ++ "/" ++ modeltype ++ "/" ++ model ++ ".dat"

/-- Cell 2: `outfile = modeltype+"_"+model+"_"+transformation`. -/
def outfile : String := modeltype ++ "_" ++ model ++ "_" ++ transformation

/-- Cell 2: `window_tstart = 0.742`. -/
def window_tstart : ℚ := 0.742

/-- Cell 2: `window_tend = 0.762`. -/
def window_tend : ℚ := 0.762

/-- Cell 2: `window_bins = 60`. -/
def window_bins : ℕ := 60

/-- `np.linspace(start, stop, num, endpoint=False)`: `num` samples
`start + i * step` for `i = 0, …, num - 1`, with `step = (stop - start) / num`. -/
def linspace (start stop : ℚ) (num : ℕ) : List ℚ :=
  (List.range num).map fun i : ℕ => start + (i : ℚ) * ((stop - start) / (num : ℚ))

/-- Cell 2: `tstart = np.linspace(window_tstart, window_tend, window_bins, endpoint=False)`
(the `* u.s` unit factor is dropped; values are in seconds). -/
def tstart : List ℚ := linspace window_tstart window_tend window_bins

/-- Cell 2: `tend = tstart + (window_tend - window_tstart) / window_bins` (elementwise). -/
def tend : List ℚ := tstart.map fun t => t + (window_tend - window_tstart) / (window_bins : ℚ)

/-- Cell 2: `tmid = (tstart + tend) * 0.5` (elementwise). -/
def tmid : List ℚ := List.zipWith (fun a b => (a + b) * 0.5) tstart tend

/-- The common width of one time bin, `(window_tend - window_tstart) / window_bins`. -/
def binWidth : ℚ := (window_tend - window_tstart) / (window_bins : ℚ)

/-- Cell 4: `factor = window_bins / (window_tend - window_tstart) / 1000`. -/
def factor : ℚ := (window_bins : ℚ) / (window_tend - window_tstart) / 1000

/-- Cell 4: the dictionary key constructed for bin `i`,
`f"Collated_{outfile}_{i}_{detector}_events_smeared_weighted.dat"`;
Python's `str(i)` for a natural number is its decimal representation `Nat.repr`. -/
def key (i : ℕ) : String :=
  "Collated_" ++ outfile ++ "_" ++ Nat.repr i ++ "_" ++ detector ++ "_events_smeared_weighted.dat"

/-- Cell 4: `nevents = np.zeros(len(tmid))`. -/
def neventsInit : List ℚ := List.replicate tmid.length 0

/-- The sequence of dictionary keys constructed by the aggregation loop
`for i in range(len(tmid))`, in loop order. -/
def keysRead : List String := (List.range tmid.length).map key

/-- A parsed SNOwGLoBES table as returned by `snowglobes.collate`: a header line
(`tables[key]['header']`) and per-column numeric data (`tables[key]['data']`). -/
structure Table where
  header : String
  data : List (List ℚ)

/-- Python `str.split()` with no argument: split at every whitespace character
and drop empty fields (equivalently, split on runs of whitespace). -/
def pySplit (s : String) : List String :=
  ((s.data.foldr
      (fun c acc =>
        if c.isWhitespace then [] :: acc
        else
          match acc with
          | [] => [[c]]
          | w :: ws => (c :: w) :: ws)
      []).filter (fun w => w ≠ [])).map String.mk

/-- Python exceptions that the notebook's own code can raise: `KeyError` from a
missing dictionary key and `IndexError` from out-of-range sequence indexing;
`toolkitError` stands for an arbitrary exception raised inside one of the
external toolkit calls. -/
inductive PyError where
  | keyError (k : String)
  | indexError
  | toolkitError (msg : String)
deriving DecidableEq

/-- `tables[key]['data'][j]`: index the column list, `IndexError` if out of range. -/
def getCol (t : Table) (j : ℕ) : Except PyError (List ℚ) :=
  match t.data[j]? with
  | some col => Except.ok col
  | none => Except.error PyError.indexError

/-- The column indices visited by the inner loop of cell 4,
`for j in range(1, len(tables[key]['header'].split()))`. -/
def columnIdxs (t : Table) : List ℕ :=
  (List.range (pySplit t.header).length).drop 1

/-- One iteration of the inner loop of cell 4 at bin `i`, column `j`:
`nevents[i] += sum(tables[key]['data'][j])`. -/
def colStep (t : Table) (i : ℕ) (nev : List ℚ) (j : ℕ) : Except PyError (List ℚ) :=
  (getCol t j).map fun col => nev.set i (nev.getD i 0 + col.sum)

/-- One iteration of the outer aggregation loop of cell 4, at bin `i`: look up
`tables[key]` (`KeyError` if the key is absent), then run the inner loop over
the column indices. -/
def binStep (tables : String → Option Table) (nev : List ℚ) (i : ℕ) :
    Except PyError (List ℚ) :=
  match tables (key i) with
  | none => Except.error (PyError.keyError (key i))
  | some t => (columnIdxs t).foldlM (colStep t i) nev

/-- Cell 4's aggregation loop: starting from `nevents = np.zeros(len(tmid))`,
run `binStep` for `i in range(len(tmid))`; a Python exception aborts the loop. -/
def aggregate (tables : String → Option Table) : Except PyError (List ℚ) :=
  (List.range tmid.length).foldlM (binStep tables) neventsInit

/-- The total the spec describes for one table: the sum over columns
`j = 1, …, len(header.split()) - 1` of the sum of column `j`'s data. -/
def tableColumnsSum (t : Table) : ℚ :=
  ((columnIdxs t).map fun j => (t.data.getD j []).sum).sum

/-- Bin `i` can be processed without a Python exception: its key is present and
every column index visited by the inner loop is within the data's range. -/
def binClean (tables : String → Option Table) (i : ℕ) : Prop :=
  ∃ t, tables (key i) = some t ∧ ∀ j ∈ columnIdxs t, j < t.data.length

/-- Observable stages of the notebook's pipeline, in execution order: the three
external calls (with the arguments they receive), the aggregation loop, and the
plotting cell. -/
inductive Event where
  | generateFluenceCall (modelfile modeltype transformation : String)
      (distance : ℚ) (outfile : String) (ts te : List ℚ)
  | simulateCall (path tarredfile detectorInput : String)
  | collateCall (path tarredfile : String) (skipPlots : Bool)
  | aggregateStage
  | plotStage
deriving DecidableEq

/-- Recognizer for fluence-generation events. -/
def isGenerateFluenceCall : Event → Bool
  | Event.generateFluenceCall _ _ _ _ _ _ _ => true
  | _ => false

/-- The external toolkit consumed by the notebook, as an opaque collaborator:
`generate_fluence(modelfile, modeltype, transformation, distance, outfile, tstart, tend)`
returning the tarred-file path, `simulate(SNOwGLoBES_path, tarredfile, detector_input=...)`,
and `collate(SNOwGLoBES_path, tarredfile, skip_plots=...)` returning the tables
dictionary.  Each call may raise. -/
structure ExternalToolkit where
  generate_fluence :
    String → String → String → ℚ → String → List ℚ → List ℚ → Except PyError String
  simulate : String → String → String → Except PyError Unit
  collate : String → String → Bool → Except PyError (String → Option Table)

/-- Cell 3 followed by cell 4: call `generate_fluence`, bind its result as
`tarredfile`, call `simulate` and `collate` on it, then aggregate and plot.
The first component records which stages ran and with which arguments, in
order; the second is the final value (or the first unhandled exception).
Aggregation and plotting share cell 4, so an exception raised inside the
aggregation loop stops the cell before any plotting happens: `plotStage` is
recorded only when the loop completes. -/
def runPipeline (ext : ExternalToolkit) : List Event × Except PyError (List ℚ) :=
  let genEv :=
    Event.generateFluenceCall modelfile modeltype transformation distance outfile tstart tend
  match ext.generate_fluence modelfile modeltype transformation distance outfile tstart tend with
  | Except.error e => ([genEv], Except.error e)
  | Except.ok tarredfile =>
    let simEv := Event.simulateCall SNOwGLoBES_path tarredfile detector
    match ext.simulate SNOwGLoBES_path tarredfile detector with
    | Except.error e => ([genEv, simEv], Except.error e)
    | Except.ok _ =>
      let colEv := Event.collateCall SNOwGLoBES_path tarredfile true
      match ext.collate SNOwGLoBES_path tarredfile true with
      | Except.error e => ([genEv, simEv, colEv], Except.error e)
      | Except.ok tables =>
        match aggregate tables with
        | Except.error e =>
          ([genEv, simEv, colEv, Event.aggregateStage], Except.error e)
        | Except.ok nevents =>
          ([genEv, simEv, colEv, Event.aggregateStage, Event.plotStage], Except.ok nevents)

/-- A well-formed collated mapping: every key maps to a table with a three-field
header and matching columns (used as a concrete witness input). -/
def tablesOk : String → Option Table :=
  fun _ => some ⟨"a b c", [[1], [2, 3], [4]]⟩

/-- A collated mapping that contains every constructed key but whose tables have
fewer data columns than header fields (used as a concrete counterexample input). -/
def tablesAllKeys : String → Option Table :=
  fun _ => some ⟨"a b", [[1]]⟩

/-- A toolkit whose three entry points all succeed (witness input). -/
def extOk : ExternalToolkit :=
  ⟨fun _ _ _ _ _ _ _ => Except.ok "fluence.tar.bz2",
    fun _ _ _ => Except.ok (),
    fun _ _ _ => Except.ok tablesOk⟩

/-- A toolkit whose fluence generation raises (witness input). -/
def extFailGen : ExternalToolkit :=
  ⟨fun _ _ _ _ _ _ _ => Except.error (PyError.toolkitError "no model file"),
    fun _ _ _ => Except.ok (),
    fun _ _ _ => Except.ok tablesOk⟩

theorem tstart_length : tstart.length = window_bins := by
  simp only [tstart, linspace, List.length_map, List.length_range]

theorem tend_length : tend.length = window_bins := by
  simp only [tend, List.length_map, tstart_length]

theorem tmid_length : tmid.length = window_bins := by
  simp only [tmid, List.length_zipWith, tstart_length, tend_length, Nat.min_self]

theorem tstart_getD (i : ℕ) (h : i < window_bins) :
    tstart.getD i 0 = window_tstart + i * ((window_tend - window_tstart) / window_bins) := by
  have hlen : i < tstart.length := by rwa [tstart_length]
  rw [List.getD_eq_getElem _ _ hlen]
  simp only [tstart, linspace, List.getElem_map, List.getElem_range]

theorem tend_getD (i : ℕ) (h : i < window_bins) :
    tend.getD i 0 = tstart.getD i 0 + (window_tend - window_tstart) / (window_bins : ℚ) := by
  have hlen : i < tstart.length := by rwa [tstart_length]
  have hlen' : i < tend.length := by rwa [tend_length]
  rw [List.getD_eq_getElem _ _ hlen, List.getD_eq_getElem _ _ hlen']
  simp [tend]

theorem tmid_getD (i : ℕ) (h : i < window_bins) :
    tmid.getD i 0 = (tstart.getD i 0 + tend.getD i 0) * 0.5 := by
  have h1 : i < tstart.length := by rwa [tstart_length]
  have h2 : i < tend.length := by rwa [tend_length]
  have h3 : i < tmid.length := by rwa [tmid_length]
  rw [List.getD_eq_getElem _ _ h1, List.getD_eq_getElem _ _ h2, List.getD_eq_getElem _ _ h3]
  simp [tmid, List.getElem_zipWith]

theorem neventsInit_getD (i : ℕ) : neventsInit.getD i 0 = 0 := by
  by_cases h : i < neventsInit.length
  · rw [List.getD_eq_getElem _ _ h]
    simp [neventsInit]
  · exact List.getD_eq_default _ _ (Nat.not_lt.mp h)

theorem data_append (s t : String) : (s ++ t).data = s.data ++ t.data := by
  cases s; cases t; rfl

theorem eq_of_data_eq (s t : String) (h : s.data = t.data) : s = t := by
  cases s; cases t; exact congrArg String.mk h

theorem key_eq_imp_repr_eq (i j : ℕ) (h : key i = key j) : Nat.repr i = Nat.repr j := by
  have hd : (key i).data = (key j).data := by rw [h]
  simp only [key, data_append, List.append_assoc] at hd
  have h1 := List.append_cancel_left hd
  have h2 := List.append_cancel_left h1
  have h3 := List.append_cancel_left h2
  have h4 := List.append_cancel_right h3
  exact eq_of_data_eq _ _ h4

theorem repr_ne_of_lt_60 : ∀ i < 60, ∀ j < 60, i ≠ j → Nat.repr i ≠ Nat.repr j := by decide

theorem key_inj (i j : ℕ) (hi : i < window_bins) (hj : j < window_bins) (hij : i ≠ j) :
    key i ≠ key j := by
  intro h
  exact repr_ne_of_lt_60 i hi j hj hij (key_eq_imp_repr_eq i j h)

theorem ok_bind {α β : Type} (a : α) (f : α → Except PyError β) :
    (Except.ok a : Except PyError α) >>= f = f a := rfl

theorem error_bind {α β : Type} (e : PyError) (f : α → Except PyError β) :
    (Except.error e : Except PyError α) >>= f = Except.error e := rfl

theorem getD_set_self (l : List ℚ) (i : ℕ) (v : ℚ) (h : i < l.length) :
    (l.set i v).getD i 0 = v := by
  have h' : i < (l.set i v).length := by simpa using h
  rw [List.getD_eq_getElem _ _ h']
  exact List.getElem_set_self h'

theorem getD_set_ne (l : List ℚ) (i k : ℕ) (v : ℚ) (h : k ≠ i) :
    (l.set i v).getD k 0 = l.getD k 0 := by
  by_cases hk : k < l.length
  · have hk' : k < (l.set i v).length := by simpa using hk
    rw [List.getD_eq_getElem _ _ hk', List.getD_eq_getElem _ _ hk]
    exact List.getElem_set_ne (Ne.symm h) hk'
  · have hk1 : l.length ≤ k := Nat.not_lt.mp hk
    rw [List.getD_eq_default _ _ hk1, List.getD_eq_default _ _ (by simpa using hk1)]

theorem getCol_ok (t : Table) (j : ℕ) (hj : j < t.data.length) :
    getCol t j = Except.ok (t.data.getD j []) := by
  simp only [getCol, List.getElem?_eq_getElem hj]
  rw [List.getD_eq_getElem _ _ hj]

theorem getCol_err (t : Table) (j : ℕ) (hj : t.data.length ≤ j) :
    getCol t j = Except.error PyError.indexError := by
  simp only [getCol, List.getElem?_eq_none hj]

theorem colStep_ok (t : Table) (i : ℕ) (nev : List ℚ) (j : ℕ) (hj : j < t.data.length) :
    colStep t i nev j = Except.ok (nev.set i (nev.getD i 0 + (t.data.getD j []).sum)) := by
  rw [colStep, getCol_ok t j hj]
  rfl

theorem colFold_ok (t : Table) (i : ℕ) :
    ∀ js : List ℕ, (∀ j ∈ js, j < t.data.length) →
    ∀ nev : List ℚ, i < nev.length →
    ∃ r, js.foldlM (colStep t i) nev = Except.ok r ∧
      r.length = nev.length ∧
      r.getD i 0 = nev.getD i 0 + (js.map fun j => (t.data.getD j []).sum).sum ∧
      (∀ k, k ≠ i → r.getD k 0 = nev.getD k 0) := by
  intro js
  induction js with
  | nil =>
    intro _ nev _
    exact ⟨nev, rfl, rfl, by simp, fun _ _ => rfl⟩
  | cons j js ih =>
    intro hcols nev hi
    have hj : j < t.data.length := hcols j (List.mem_cons_self j js)
    rw [List.foldlM_cons, colStep_ok t i nev j hj, ok_bind]
    have hi' : i < (nev.set i (nev.getD i 0 + (t.data.getD j []).sum)).length := by
      simpa using hi
    obtain ⟨r, hfold, hlen, hval, hother⟩ :=
      ih (fun j2 hj2 => hcols j2 (List.mem_cons_of_mem j hj2)) _ hi'
    refine ⟨r, hfold, by rw [hlen]; simp, ?_, ?_⟩
    · rw [hval, getD_set_self nev i _ hi]
      simp only [List.map_cons, List.sum_cons]
      ring
    · intro k hk
      rw [hother k hk]
      exact getD_set_ne nev i k _ hk

theorem colFold_err (t : Table) (i : ℕ) :
    ∀ js : List ℕ, ∀ nev : List ℚ, (∃ j ∈ js, t.data.length ≤ j) →
      js.foldlM (colStep t i) nev = Except.error PyError.indexError := by
  intro js
  induction js with
  | nil =>
    intro nev h
    obtain ⟨j, hj, _⟩ := h
    exact absurd hj (List.not_mem_nil j)
  | cons j js ih =>
    intro nev h
    by_cases hj : j < t.data.length
    · rw [List.foldlM_cons, colStep_ok t i nev j hj, ok_bind]
      apply ih
      obtain ⟨j2, hj2, hge⟩ := h
      rcases List.mem_cons.mp hj2 with rfl | hmem
      · omega
      · exact ⟨j2, hmem, hge⟩
    · have hstep : colStep t i nev j = Except.error PyError.indexError := by
        rw [colStep, getCol_err t j (Nat.not_lt.mp hj)]
        rfl
      rw [List.foldlM_cons, hstep, error_bind]

theorem binStep_ok (tables : String → Option Table) (nev : List ℚ) (i : ℕ) (t : Table)
    (ht : tables (key i) = some t) (hcols : ∀ j ∈ columnIdxs t, j < t.data.length)
    (hi : i < nev.length) :
    ∃ r, binStep tables nev i = Except.ok r ∧ r.length = nev.length ∧
      r.getD i 0 = nev.getD i 0 + tableColumnsSum t ∧
      (∀ k, k ≠ i → r.getD k 0 = nev.getD k 0) := by
  obtain ⟨r, hfold, hlen, hval, hother⟩ := colFold_ok t i (columnIdxs t) hcols nev hi
  refine ⟨r, ?_, hlen, hval, hother⟩
  simp only [binStep, ht]
  exact hfold

theorem binStep_err_of_key_none (tables : String → Option Table) (nev : List ℚ) (i : ℕ)
    (h : tables (key i) = none) :
    binStep tables nev i = Except.error (PyError.keyError (key i)) := by
  simp only [binStep, h]

theorem binStep_err_of_cols (tables : String → Option Table) (nev : List ℚ) (i : ℕ) (t : Table)
    (ht : tables (key i) = some t) (h : ∃ j ∈ columnIdxs t, t.data.length ≤ j) :
    binStep tables nev i = Except.error PyError.indexError := by
  simp only [binStep, ht]
  exact colFold_err t i (columnIdxs t) nev h

theorem aggFold_ok (tables : String → Option Table) :
    ∀ k : ℕ, k ≤ tmid.length → (∀ i, i < k → binClean tables i) →
    ∃ r, (List.range k).foldlM (binStep tables) neventsInit = Except.ok r ∧
      r.length = tmid.length ∧
      (∀ i t, i < k → tables (key i) = some t → r.getD i 0 = tableColumnsSum t) ∧
      (∀ i, k ≤ i → r.getD i 0 = 0) := by
  intro k
  induction k with
  | zero =>
    intro _ _
    refine ⟨neventsInit, rfl, by simp [neventsInit], ?_, fun i _ => neventsInit_getD i⟩
    intro i t hi _
    exact absurd hi (Nat.not_lt_zero i)
  | succ k ih =>
    intro hk hclean
    obtain ⟨r, hr, hrlen, hrval, hrzero⟩ := ih (by omega) (fun i hi => hclean i (by omega))
    obtain ⟨t, ht, hcols⟩ := hclean k (by omega)
    have hik : k < r.length := by rw [hrlen]; omega
    obtain ⟨s, hstep, hslen, hsval, hsother⟩ := binStep_ok tables r k t ht hcols hik
    refine ⟨s, ?_, by rw [hslen, hrlen], ?_, ?_⟩
    · rw [List.range_succ, List.foldlM_append, hr, ok_bind, List.foldlM_cons, hstep, ok_bind]
      rfl
    · intro i t2 hi ht2
      rcases Nat.lt_or_ge i k with hlt | hge
      · rw [hsother i (by omega), hrval i t2 hlt ht2]
      · have hik2 : i = k := by omega
        subst hik2
        rw [ht] at ht2
        obtain rfl := Option.some.inj ht2
        rw [hsval, hrzero i le_rfl, zero_add]
    · intro i hge
      rw [hsother i (by omega), hrzero i (by omega)]

theorem aggFold_err_mono (tables : String → Option Table) (k : ℕ) (e : PyError)
    (h : (List.range k).foldlM (binStep tables) neventsInit = Except.error e) :
    ∀ n, k ≤ n → (List.range n).foldlM (binStep tables) neventsInit = Except.error e := by
  intro n hkn
  induction n, hkn using Nat.le_induction with
  | base => exact h
  | succ n hkn ihn =>
    rw [List.range_succ, List.foldlM_append, ihn, error_bind]

theorem agg_err_of_unclean (tables : String → Option Table) :
    ∀ i, i < tmid.length → ¬ binClean tables i → ∃ e, aggregate tables = Except.error e := by
  intro i
  induction i using Nat.strong_induction_on with
  | _ i ih =>
    intro hi hbad
    by_cases hprev : ∃ j, j < i ∧ ¬ binClean tables j
    · obtain ⟨j, hj, hjbad⟩ := hprev
      exact ih j hj (by omega) hjbad
    · push_neg at hprev
      obtain ⟨r, hr, hrlen, _, _⟩ := aggFold_ok tables i (by omega) (fun j hj => hprev j hj)
      have hstep : ∃ e, binStep tables r i = Except.error e := by
        unfold binClean at hbad
        push_neg at hbad
        cases htab : tables (key i) with
        | none => exact ⟨_, binStep_err_of_key_none tables r i htab⟩
        | some t =>
          obtain ⟨j, hjmem, hjlen⟩ := hbad t htab
          exact ⟨_, binStep_err_of_cols tables r i t htab ⟨j, hjmem, hjlen⟩⟩
      obtain ⟨e, he⟩ := hstep
      refine ⟨e, ?_⟩
      have hpart : (List.range (i + 1)).foldlM (binStep tables) neventsInit
          = Except.error e := by
        rw [List.range_succ, List.foldlM_append, hr, ok_bind, List.foldlM_cons, he, error_bind]
      exact aggFold_err_mono tables (i + 1) e hpart tmid.length (by omega)

theorem clean_of_aggregate_ok (tables : String → Option Table) (nev : List ℚ)
    (h : aggregate tables = Except.ok nev) :
    ∀ i, i < tmid.length → binClean tables i := by
  intro i hi
  by_contra hbad
  obtain ⟨e, he⟩ := agg_err_of_unclean tables i hi hbad
  rw [h] at he
  exact Except.noConfusion he

/-- Claim C2: for every bin index `i < window_bins`, the window boundaries satisfy
`tstart[i] = window_tstart + i * (window_tend - window_tstart) / window_bins`,
`tend[i] = tstart[i] + (window_tend - window_tstart) / window_bins`, and
`tmid[i] = (tstart[i] + tend[i]) / 2`, over exact rational arithmetic. -/
theorem time_window_boundaries (i : ℕ) (h : i < window_bins) :
    tstart.getD i 0 = window_tstart + i * ((window_tend - window_tstart) / window_bins) ∧
    tend.getD i 0 = tstart.getD i 0 + (window_tend - window_tstart) / window_bins ∧
    tmid.getD i 0 = (tstart.getD i 0 + tend.getD i 0) / 2 := by
  refine ⟨tstart_getD i h, tend_getD i h, ?_⟩
  rw [tmid_getD i h]
  ring

/-- Witness for C2 at bin 3. -/
theorem time_window_boundaries_witness :
    tstart.getD 3 0 = window_tstart + 3 * ((window_tend - window_tstart) / window_bins) ∧
    tend.getD 3 0 = tstart.getD 3 0 + (window_tend - window_tstart) / window_bins ∧
    tmid.getD 3 0 = (tstart.getD 3 0 + tend.getD 3 0) / 2 := by
  have h3 : (3 : ℕ) < window_bins := by decide
  simpa using time_window_boundaries 3 h3

/-- Claim C9: the windows form a contiguous equal-width partition of
`[window_tstart, window_tend)`: `tstart[0] = window_tstart`, `tend[i] = tstart[i+1]`
for `i < window_bins - 1`, `tend[window_bins - 1] = window_tend`, and every bin
has width `(window_tend - window_tstart) / window_bins`, over exact rationals. -/
theorem time_windows_partition :
    tstart.getD 0 0 = window_tstart ∧
    (∀ i, i + 1 < window_bins → tend.getD i 0 = tstart.getD (i + 1) 0) ∧
    tend.getD (window_bins - 1) 0 = window_tend ∧
    (∀ i, i < window_bins → tend.getD i 0 - tstart.getD i 0 = binWidth) := by
  refine ⟨?_, ?_, ?_, ?_⟩
  · rw [tstart_getD 0 (by decide)]; norm_num
  · intro i hi
    rw [tend_getD i (by omega), tstart_getD i (by omega), tstart_getD (i + 1) hi]
    push_cast
    ring
  · rw [tend_getD (window_bins - 1) (by decide), tstart_getD (window_bins - 1) (by decide)]
    norm_num [window_tstart, window_tend, window_bins]
  · intro i hi
    rw [tend_getD i hi, binWidth]
    ring

/-- Witness for C9 at bin 5: the end of bin 5 is the start of bin 6, and bin 5 has
the common width. -/
theorem time_windows_partition_witness :
    tend.getD 5 0 = tstart.getD 6 0 ∧ tend.getD 5 0 - tstart.getD 5 0 = binWidth := by
  exact ⟨time_windows_partition.2.1 5 (by decide), time_windows_partition.2.2.2 5 (by decide)⟩

/-- Claim C3: the lookup key for bin `i` is exactly
`"Collated_" ++ outfile ++ "_" ++ str(i) ++ "_" ++ detector ++ "_events_smeared_weighted.dat"`
with `outfile = modeltype ++ "_" ++ model ++ "_" ++ transformation`, and two distinct
bin indices always yield distinct keys. -/
theorem key_encodes_and_distinct :
    (∀ i : ℕ, key i =
      "Collated_" ++ outfile ++ "_" ++ Nat.repr i ++ "_" ++ detector ++
        "_events_smeared_weighted.dat") ∧
    outfile = modeltype ++ "_" ++ model ++ "_" ++ transformation ∧
    (∀ i j : ℕ, i < window_bins → j < window_bins → i ≠ j → key i ≠ key j) :=
  ⟨fun _ => rfl, rfl, key_inj⟩

/-- Witness for C3: the keys for bins 0 and 1 differ. -/
theorem key_encodes_and_distinct_witness : key 0 ≠ key 1 :=
  key_encodes_and_distinct.2.2 0 1 (by decide) (by decide) (by decide)

/-- Claim C10: `tstart`, `tend`, `tmid` all have length `window_bins = 60`, the
`nevents` accumulator is created with that same length, and the aggregation loop
constructs exactly the keys for bin indices `0` through `window_bins - 1`, one per
bin (pairwise distinct). -/
theorem lengths_and_keys_agree :
    tstart.length = window_bins ∧ tend.length = window_bins ∧ tmid.length = window_bins ∧
    window_bins = 60 ∧ neventsInit.length = tmid.length ∧
    keysRead = (List.range window_bins).map key ∧ keysRead.Nodup := by
  refine ⟨tstart_length, tend_length, tmid_length, rfl, by simp [neventsInit], ?_, ?_⟩
  · rw [keysRead, tmid_length]
  · rw [keysRead, tmid_length]
    refine List.Nodup.map_on ?_ (List.nodup_range 60)
    intro x hx y hy hk
    by_contra hxy
    exact key_inj x y (List.mem_range.mp hx) (List.mem_range.mp hy) hxy hk

theorem tablesOk_clean : ∀ i, i < window_bins → binClean tablesOk i := by
  intro i _
  refine ⟨⟨"a b c", [[1], [2, 3], [4]]⟩, rfl, ?_⟩
  intro j hj
  have hc : columnIdxs ⟨"a b c", [[1], [2, 3], [4]]⟩ = [1, 2] := by decide
  rw [hc] at hj
  simp only [List.mem_cons, List.not_mem_nil, or_false] at hj
  rcases hj with rfl | rfl <;> decide

theorem tableColumnsSum_tablesOk : tableColumnsSum ⟨"a b c", [[1], [2, 3], [4]]⟩ = 9 := by
  have hc : columnIdxs ⟨"a b c", [[1], [2, 3], [4]]⟩ = [1, 2] := by decide
  rw [tableColumnsSum, hc]
  simp only [List.map_cons, List.map_nil, List.sum_cons, List.sum_nil,
    List.getD_cons_succ, List.getD_cons_zero]
  norm_num

theorem aggregate_tablesOk : aggregate tablesOk = Except.ok (List.replicate 60 (9 : ℚ)) := by
  have hlen : tmid.length = window_bins := tmid_length
  obtain ⟨r, hr, hrlen, hrval, _⟩ := aggFold_ok tablesOk tmid.length le_rfl
    (fun j hj => tablesOk_clean j (by omega))
  have hrepl : r = List.replicate 60 (9 : ℚ) := by
    have hlen60 : r.length = 60 := by
      rw [hrlen, hlen]
      rfl
    apply List.ext_getElem (by simp [hlen60])
    intro i h1 h2
    have hi : i < tmid.length := by rw [← hrlen]; exact h1
    have h9 := hrval i ⟨"a b c", [[1], [2, 3], [4]]⟩ hi rfl
    rw [tableColumnsSum_tablesOk, List.getD_eq_getElem _ _ h1] at h9
    rw [h9, List.getElem_replicate]

  unfold aggregate
  rw [hr, hrepl]

/-- Claim C1: if the aggregation loop completes, then for every bin index
`i < window_bins` the per-bin event count `nevents[i]` equals the sum, over the
columns `j = 1, …, len(header.split()) - 1` of the parsed table stored under the
key for bin `i` (column 0 is skipped), of the sum of that column's numeric data;
`nevents` starts as all zeros. -/
theorem nevents_eq_column_sums (tables : String → Option Table) (nev : List ℚ)
    (h : aggregate tables = Except.ok nev) :
    ∀ i t, i < window_bins → tables (key i) = some t →
      nev.getD i 0 = tableColumnsSum t := by
  intro i t hi ht
  have hlen : tmid.length = window_bins := tmid_length
  obtain ⟨r, hr, _, hrval, _⟩ :=
    aggFold_ok tables tmid.length le_rfl (fun j hj => clean_of_aggregate_ok tables nev h j hj)
  unfold aggregate at h
  rw [hr] at h
  obtain rfl := Except.ok.inj h
  exact hrval i t (by omega) ht

/-- Witness for C1: with every key mapped to the table
`{header: "a b c", data: [[1], [2, 3], [4]]}` the loop completes and every bin
holds `(2 + 3) + 4 = 9`, the sum over columns 1 and 2. -/
theorem nevents_eq_column_sums_witness :
    (List.replicate 60 (9 : ℚ)).getD 0 0 = tableColumnsSum ⟨"a b c", [[1], [2, 3], [4]]⟩ :=
  nevents_eq_column_sums tablesOk (List.replicate 60 9) aggregate_tablesOk 0
    ⟨"a b c", [[1], [2, 3], [4]]⟩ (by decide) rfl

/-- Claim C5: `factor = window_bins / (window_tend - window_tstart) / 1000`, which is
the reciprocal of one thousand times the common bin width; hence multiplying a
per-bin count by `factor` divides it by the bin width expressed in milliseconds
(exact rational arithmetic). -/
theorem factor_unit_conversion :
    factor = (window_bins : ℚ) / (window_tend - window_tstart) / 1000 ∧
    factor = (binWidth * 1000)⁻¹ ∧
    ∀ (tables : String → Option Table) (nev : List ℚ),
      aggregate tables = Except.ok nev →
      ∀ i : ℕ, nev.getD i 0 * factor = nev.getD i 0 / (binWidth * 1000) := by
  have hfac : factor = (binWidth * 1000)⁻¹ := by
    norm_num [factor, binWidth, window_tstart, window_tend, window_bins]
  refine ⟨rfl, hfac, fun tables nev _ i => ?_⟩
  rw [hfac, div_eq_mul_inv]

/-- Witness for C5 on the completed aggregation of `tablesOk`, at bin 0. -/
theorem factor_unit_conversion_witness :
    (List.replicate 60 (9 : ℚ)).getD 0 0 * factor
      = (List.replicate 60 (9 : ℚ)).getD 0 0 / (binWidth * 1000) :=
  factor_unit_conversion.2.2 tablesOk (List.replicate 60 9) aggregate_tablesOk 0

/-- Counterexample to C7 as stated: `tablesAllKeys` contains every constructed
key, yet the aggregation loop does not complete without error: the table under
each key has two header fields but only one data column, so the inner loop
raises `IndexError` at bin 0. -/
theorem aggregation_counterexample :
    ((List.range window_bins).all fun i => (tablesAllKeys (key i)).isSome) = true ∧
    aggregate tablesAllKeys = Except.error PyError.indexError := by
  exact ⟨rfl, rfl⟩

/-- Claim C7 (amended): the aggregation performs no validation before indexing.
If the first problematic bin `i` has its constructed key absent (all earlier
bins being processable), the loop fails with `KeyError` for that key rather than
skipping the bin or substituting a default; and for every mapping containing all
`window_bins` constructed keys whose tables also keep every visited column index
within the data's range, the loop completes without error. -/
theorem aggregation_requires_valid_tables :
    (∀ (tables : String → Option Table) (i : ℕ), i < window_bins →
      tables (key i) = none → (∀ j, j < i → binClean tables j) →
      aggregate tables = Except.error (PyError.keyError (key i))) ∧
    (∀ tables : String → Option Table, (∀ i, i < window_bins → binClean tables i) →
      ∃ r, aggregate tables = Except.ok r) := by
  have hlen : tmid.length = window_bins := tmid_length
  constructor
  · intro tables i hi hnone hclean
    obtain ⟨r, hr, hrlen, _, _⟩ := aggFold_ok tables i (by omega) (fun j hj => hclean j hj)
    have hstep := binStep_err_of_key_none tables r i hnone
    have hpart : (List.range (i + 1)).foldlM (binStep tables) neventsInit
        = Except.error (PyError.keyError (key i)) := by
      rw [List.range_succ, List.foldlM_append, hr, ok_bind, List.foldlM_cons, hstep, error_bind]
    exact aggFold_err_mono tables (i + 1) _ hpart tmid.length (by omega)
  · intro tables hclean
    obtain ⟨r, hr, _, _, _⟩ :=
      aggFold_ok tables tmid.length le_rfl (fun j hj => hclean j (by omega))
    exact ⟨r, hr⟩

/-- Witness for C7 (amended): on the empty mapping the loop fails with `KeyError`
for the key of bin 0. -/
theorem aggregation_requires_valid_tables_witness :
    aggregate (fun _ => none) = Except.error (PyError.keyError (key 0)) :=
  aggregation_requires_valid_tables.1 (fun _ => none) 0 (by decide) rfl
    (fun j hj => absurd hj (Nat.not_lt_zero j))

/-- Claim C4: when the three external calls succeed and the aggregation loop
completes, the pipeline is exactly the sequence build-boundaries →
`generate_fluence` → `simulate` → `collate` → aggregate → plot, each stage
running only after the previous one completes; the artifact path returned by
`generate_fluence` is the input passed to both `simulate` and `collate`, and
the mapping returned by `collate` is the only input of the aggregation. -/
theorem pipeline_dataflow (ext : ExternalToolkit) (tarredfile : String)
    (tables : String → Option Table) (nev : List ℚ)
    (hgen : ext.generate_fluence modelfile modeltype transformation distance outfile tstart tend
      = Except.ok tarredfile)
    (hsim : ext.simulate SNOwGLoBES_path tarredfile detector = Except.ok ())
    (hcol : ext.collate SNOwGLoBES_path tarredfile true = Except.ok tables)
    (hagg : aggregate tables = Except.ok nev) :
    runPipeline ext =
      ([Event.generateFluenceCall modelfile modeltype transformation distance outfile
          tstart tend,
        Event.simulateCall SNOwGLoBES_path tarredfile detector,
        Event.collateCall SNOwGLoBES_path tarredfile true,
        Event.aggregateStage, Event.plotStage],
        aggregate tables) := by
  simp [runPipeline, hgen, hsim, hcol, hagg]

/-- Witness for C4 on the all-succeeding toolkit `extOk`, whose collated tables
make the aggregation loop complete. -/
theorem pipeline_dataflow_witness :
    runPipeline extOk =
      ([Event.generateFluenceCall modelfile modeltype transformation distance outfile
          tstart tend,
        Event.simulateCall SNOwGLoBES_path "fluence.tar.bz2" detector,
        Event.collateCall SNOwGLoBES_path "fluence.tar.bz2" true,
        Event.aggregateStage, Event.plotStage],
        aggregate tablesOk) :=
  pipeline_dataflow extOk "fluence.tar.bz2" tablesOk (List.replicate 60 9) rfl rfl rfl
    aggregate_tablesOk

/-- Claim C6: no external toolkit call is wrapped in handler, retry or recovery
logic: whichever of `generate_fluence`, `simulate`, `collate` raises first, the
error is the pipeline's result unchanged, and no later stage runs (the recorded
stages stop at the failing call). -/
theorem toolkit_errors_propagate (ext : ExternalToolkit) (e : PyError) :
    (ext.generate_fluence modelfile modeltype transformation distance outfile tstart tend
        = Except.error e →
      runPipeline ext =
        ([Event.generateFluenceCall modelfile modeltype transformation distance outfile
            tstart tend], Except.error e)) ∧
    (∀ tarredfile,
      ext.generate_fluence modelfile modeltype transformation distance outfile tstart tend
        = Except.ok tarredfile →
      ext.simulate SNOwGLoBES_path tarredfile detector = Except.error e →
      runPipeline ext =
        ([Event.generateFluenceCall modelfile modeltype transformation distance outfile
            tstart tend,
          Event.simulateCall SNOwGLoBES_path tarredfile detector], Except.error e)) ∧
    (∀ tarredfile,
      ext.generate_fluence modelfile modeltype transformation distance outfile tstart tend
        = Except.ok tarredfile →
      ext.simulate SNOwGLoBES_path tarredfile detector = Except.ok () →
      ext.collate SNOwGLoBES_path tarredfile true = Except.error e →
      runPipeline ext =
        ([Event.generateFluenceCall modelfile modeltype transformation distance outfile
            tstart tend,
          Event.simulateCall SNOwGLoBES_path tarredfile detector,
          Event.collateCall SNOwGLoBES_path tarredfile true], Except.error e)) := by
  refine ⟨fun hgen => ?_, fun tarredfile hgen hsim => ?_, fun tarredfile hgen hsim hcol => ?_⟩
  · simp [runPipeline, hgen]
  · simp [runPipeline, hgen, hsim]
  · simp [runPipeline, hgen, hsim, hcol]

/-- Witness for C6: a toolkit whose `generate_fluence` raises; the pipeline
returns that error and records only the fluence-generation stage. -/
theorem toolkit_errors_propagate_witness :
    runPipeline extFailGen =
      ([Event.generateFluenceCall modelfile modeltype transformation distance outfile
          tstart tend], Except.error (PyError.toolkitError "no model file")) :=
  (toolkit_errors_propagate extFailGen (PyError.toolkitError "no model file")).1 rfl

/-- Claim C8: in every run, `generate_fluence` is invoked exactly once and first,
with the model file path, model type, transformation name, distance, output name,
and the time-window start and end arrays, in that order; and whenever it returns
an artifact path, every `simulate` and every `collate` stage in the run consumes
exactly that path. -/
theorem generate_fluence_called_once (ext : ExternalToolkit) :
    (runPipeline ext).1.countP isGenerateFluenceCall = 1 ∧
    (runPipeline ext).1.head? =
      some (Event.generateFluenceCall modelfile modeltype transformation distance outfile
        tstart tend) ∧
    ∀ tarredfile,
      ext.generate_fluence modelfile modeltype transformation distance outfile tstart tend
        = Except.ok tarredfile →
      (∀ p t d, Event.simulateCall p t d ∈ (runPipeline ext).1 → t = tarredfile) ∧
      (∀ p t b, Event.collateCall p t b ∈ (runPipeline ext).1 → t = tarredfile) := by
  rcases hgen : ext.generate_fluence modelfile modeltype transformation distance outfile
      tstart tend with e | tarred
  · refine ⟨?_, ?_, ?_⟩
    · simp [runPipeline, hgen, isGenerateFluenceCall]
    · simp [runPipeline, hgen]
    · intro tarredfile h
      exact Except.noConfusion h
  · rcases hsim : ext.simulate SNOwGLoBES_path tarred detector with e2 | u
    · refine ⟨?_, ?_, ?_⟩
      · simp [runPipeline, hgen, hsim, isGenerateFluenceCall]
      · simp [runPipeline, hgen, hsim]
      · intro tarredfile h
        obtain rfl := Except.ok.inj h
        constructor
        · intro p t d hmem
          simp [runPipeline, hgen, hsim] at hmem
          exact hmem.2.1
        · intro p t b hmem
          simp [runPipeline, hgen, hsim] at hmem
    · rcases hcol : ext.collate SNOwGLoBES_path tarred true with e3 | tables
      · refine ⟨?_, ?_, ?_⟩
        · simp [runPipeline, hgen, hsim, hcol, isGenerateFluenceCall]
        · simp [runPipeline, hgen, hsim, hcol]
        · intro tarredfile h
          obtain rfl := Except.ok.inj h
          constructor
          · intro p t d hmem
            simp [runPipeline, hgen, hsim, hcol] at hmem
            exact hmem.2.1
          · intro p t b hmem
            simp [runPipeline, hgen, hsim, hcol] at hmem
            exact hmem.2.1
      · rcases hagg : aggregate tables with e4 | nev
        · refine ⟨?_, ?_, ?_⟩
          · simp [runPipeline, hgen, hsim, hcol, hagg, isGenerateFluenceCall]
          · simp [runPipeline, hgen, hsim, hcol, hagg]
          · intro tarredfile h
            obtain rfl := Except.ok.inj h
            constructor
            · intro p t d hmem
              simp [runPipeline, hgen, hsim, hcol, hagg] at hmem
              exact hmem.2.1
            · intro p t b hmem
              simp [runPipeline, hgen, hsim, hcol, hagg] at hmem
              exact hmem.2.1
        · refine ⟨?_, ?_, ?_⟩
          · simp [runPipeline, hgen, hsim, hcol, hagg, isGenerateFluenceCall]
          · simp [runPipeline, hgen, hsim, hcol, hagg]
          · intro tarredfile h
            obtain rfl := Except.ok.inj h
            constructor
            · intro p t d hmem
              simp [runPipeline, hgen, hsim, hcol, hagg] at hmem
              exact hmem.2.1
            · intro p t b hmem
              simp [runPipeline, hgen, hsim, hcol, hagg] at hmem
              exact hmem.2.1

/-- Witness for C8 on `extOk`: one fluence-generation call, and the simulate
stage consumes the returned artifact path. -/
theorem generate_fluence_called_once_witness :
    (runPipeline extOk).1.countP isGenerateFluenceCall = 1 ∧
    "fluence.tar.bz2" = "fluence.tar.bz2" :=
  ⟨(generate_fluence_called_once extOk).1,
    ((generate_fluence_called_once extOk).2.2 "fluence.tar.bz2" rfl).1
      SNOwGLoBES_path "fluence.tar.bz2" detector (by decide)⟩

end SnowglobesUsage
